import Mathlib

/-!
Verification of the catalog controller in `src/pages/admin/AdminProducts.tsx`
(repository IM-FRONT).

The controller is a React function component. Its per-activation state is the
six `useState` cells declared at the top of the component; the command handlers
and the initial-load effect are embedded below as pure state transformers
parameterised by the settlement of the corresponding remote call
(`fetchProducts` / `createProduct` / `updateProduct` / `deleteProduct`).
A remote call either resolves with a typed value or rejects with an error
value; we model settlements as `Except Err _`, with `Err := String` standing
for the opaque JavaScript `Error` value.

A handler that contains no `try`/`catch` re-raises the rejection of its
awaited remote call to its own caller; we model each command handler as
returning the next state together with the `Except Err Unit` outcome of the
handler promise itself, so that "the handler promise rejects" is visible in
the embedding.
-/

namespace AdminProducts

/-- Error values (the JavaScript `Error` objects caught or re-thrown by the
component) are opaque to the controller; we model them as strings. -/
abbrev Err := String

/-- The managed entity (`Product` from `product-data-types`). The controller
reads only the `id` field (`p.id` comparisons in the edit, update and delete
handlers); the remaining product attributes are opaque to it and are collapsed
into a single opaque `payload` field. -/
structure Product where
  id : String
  payload : String
deriving DecidableEq

/-- The six `useState` cells of the `AdminProducts` component, in source
order: `products`, `isLoading`, `error`, `isCreateDialogOpen`,
`isEditDialogOpen`, `selectedProductForEdit`. -/
structure State where
  products : List Product
  isLoading : Bool
  error : Option Err
  isCreateDialogOpen : Bool
  isEditDialogOpen : Bool
  selectedProductForEdit : Option Product
deriving DecidableEq

/-- The `useState` initial values: `[]`, `true`, `null`, `false`, `false`,
`null`. -/
def initialState : State :=
  { products := []
    isLoading := true
    error := none
    isCreateDialogOpen := false
    isEditDialogOpen := false
    selectedProductForEdit := none }

/-- The synchronous prefix of the `getProducts` effect body, executed when the
load is issued: `setIsLoading(true); setError(null)`. -/
def loadStart (s : State) : State :=
  { s with isLoading := true, error := none }

/-- The settlement part of the `getProducts` effect body: on resolution of
`fetchProducts()` the `try` branch runs `setProducts(fetchedProducts)`; on
rejection the `catch` branch runs `setError(err)`; the `finally` branch runs
`setIsLoading(false)` in both cases. -/
def loadSettle (s : State) (result : Except Err (List Product)) : State :=
  match result with
  | Except.ok fetchedProducts =>
      { s with products := fetchedProducts, isLoading := false }
  | Except.error err =>
      { s with error := some err, isLoading := false }

/-- The whole `getProducts` async function of the mount effect, from issue to
settlement of the single `fetchProducts()` call. -/
def getProducts (s : State) (result : Except Err (List Product)) : State :=
  loadSettle (loadStart s) result

/-- The `handleCreateProduct` handler: `await createProduct(newProduct)` has
no surrounding `try`/`catch`, so a rejection re-raises out of the handler and
no state is touched; on resolution the functional update
`setProducts(prev => [...prev, createdProduct])` appends the server-returned
record. The second component is the outcome of the handler promise itself. -/
def handleCreateProduct (s : State) (result : Except Err Product) :
    State × Except Err Unit :=
  match result with
  | Except.ok createdProduct =>
      ({ s with products := s.products ++ [createdProduct] }, Except.ok ())
  | Except.error err => (s, Except.error err)

/-- The `handleEditProduct` handler (synchronous): look up
`products.find(p => p.id === productId)`; if found, set
`selectedProductForEdit` and open the edit dialog; otherwise do nothing. -/
def handleEditProduct (s : State) (productId : String) : State :=
  match s.products.find? (fun p => p.id = productId) with
  | some productToEdit =>
      { s with selectedProductForEdit := some productToEdit,
               isEditDialogOpen := true }
  | none => s

/-- The `handleProductUpdate` handler: the whole body is inside
`try`/`catch`, so a rejection of `updateProduct` is caught (logged) and the
handler promise resolves; on resolution the functional update
`setProducts(prev => prev.map(p => p.id === result.id ? result : p))`
overwrites every entry whose `id` matches the returned record. -/
def handleProductUpdate (s : State) (result : Except Err Product) :
    State × Except Err Unit :=
  match result with
  | Except.ok result =>
      ({ s with products :=
          s.products.map (fun p => if p.id = result.id then result else p) },
        Except.ok ())
  | Except.error _ => (s, Except.ok ())

/-- The `handleDeleteProduct` handler: `await deleteProduct(productId)` has no
surrounding `try`/`catch`, so a rejection re-raises out of the handler; on
resolution, only when the boolean result is true does the functional update
`setProducts(prev => prev.filter(p => p.id !== productId))` run. -/
def handleDeleteProduct (s : State) (productId : String)
    (result : Except Err Bool) : State × Except Err Unit :=
  match result with
  | Except.ok true =>
      ({ s with products := s.products.filter (fun p => p.id ≠ productId) },
        Except.ok ())
  | Except.ok false => (s, Except.ok ())
  | Except.error err => (s, Except.error err)

/-!
Lifecycle model. Each activation of the component owns a fresh set of state
cells. The React runtime applies a state-setter call only while the owning
instance is mounted: an update dispatched to an unmounted instance is
discarded (the `useEffect` at lines 24-38 registers no cleanup, so
discarding-on-unmount is exactly what happens to the settlement of a load
still in flight at deactivation).
-/

/-- One activation of the component: the mounted flag of its fiber together
with its state cells. -/
structure Instance where
  mounted : Bool
  state : State
deriving DecidableEq

/-- React runtime semantics of a state-setter call on an instance: the update
is applied only while the instance is mounted; a setter invoked after unmount
is discarded and the (dead) state cells are left untouched. -/
def applySet (inst : Instance) (f : State → State) : Instance :=
  if inst.mounted then { inst with state := f inst.state } else inst

/-- Activation: mounting creates fresh state cells holding the `useState`
initial values, and the mount effect synchronously runs the pre-await part of
`getProducts` (`setIsLoading(true); setError(null)`) before suspending on
`fetchProducts()`. -/
def activate : Instance :=
  { mounted := true, state := loadStart initialState }

/-- Deactivation: unmounting clears the mounted flag. The effect registered
no cleanup, so nothing else runs. -/
def deactivate (inst : Instance) : Instance :=
  { inst with mounted := false }

/-- Settlement of the in-flight `fetchProducts()` call, routed through the
runtime: the `try`/`catch`/`finally` setters take effect only if the instance
is still mounted. -/
def settleLoad (inst : Instance) (result : Except Err (List Product)) :
    Instance :=
  applySet inst (fun s => loadSettle s result)

/-!
Trace model for the collection invariant: one activation, an arbitrary
sequence of settled operations applied to its state.
-/

/-- One settled operation of the active controller, carrying the settlement
of its remote call. -/
inductive Event where
  | load (result : Except Err (List Product))
  | create (result : Except Err Product)
  | edit (productId : String)
  | update (result : Except Err Product)
  | delete (productId : String) (result : Except Err Bool)

/-- Apply one settled operation to the controller state. -/
def step (s : State) : Event → State
  | Event.load result => getProducts s result
  | Event.create result => (handleCreateProduct s result).1
  | Event.edit productId => handleEditProduct s productId
  | Event.update result => (handleProductUpdate s result).1
  | Event.delete productId result => (handleDeleteProduct s productId result).1

/-- Apply a sequence of settled operations in order. -/
def run (s : State) (events : List Event) : State :=
  events.foldl step s

/-- The collection invariant of spec section 3: at most one entry per `id`,
stated as: the list of ids of the collection has no duplicate. -/
def uniqueIds (ps : List Product) : Prop :=
  (ps.map Product.id).Nodup

instance (ps : List Product) : Decidable (uniqueIds ps) := by
  unfold uniqueIds; infer_instance

/-- The id-authority contract of the remote service (spec sections 3 and 6):
a successful list response carries pairwise distinct ids, and a successful
create response carries a fresh id not already present in the collection the
controller holds when the response arrives. All other settlements are
unconstrained. -/
def eventRespectsContract (s : State) : Event → Prop
  | Event.load (Except.ok ps) => (ps.map Product.id).Nodup
  | Event.create (Except.ok p) => p.id ∉ s.products.map Product.id
  | _ => True

/-- A trace in which every successful settlement honours the id-authority
contract at the state it is applied to. -/
def contractTrace : State → List Event → Prop
  | _, [] => True
  | s, e :: es => eventRespectsContract s e ∧ contractTrace (step s e) es

instance decEventRespectsContract (s : State) (e : Event) :
    Decidable (eventRespectsContract s e) := by
  unfold eventRespectsContract
  match e with
  | Event.load (Except.ok ps) => infer_instance
  | Event.load (Except.error _) => exact inferInstanceAs (Decidable True)
  | Event.create (Except.ok p) => infer_instance
  | Event.create (Except.error _) => exact inferInstanceAs (Decidable True)
  | Event.edit _ => exact inferInstanceAs (Decidable True)
  | Event.update _ => exact inferInstanceAs (Decidable True)
  | Event.delete _ _ => exact inferInstanceAs (Decidable True)

instance decContractTrace : (s : State) → (es : List Event) →
    Decidable (contractTrace s es)
  | _, [] => inferInstanceAs (Decidable True)
  | s, e :: es =>
      have := decContractTrace (step s e) es
      inferInstanceAs (Decidable (_ ∧ _))

/-!
Theorems for the claims.
-/

/-- Claim C1: if the controller is deactivated before the initial load
completes, the result of the in-flight list call is not applied: for every
activation state followed by deactivation before the list promise settles,
the instance (in particular its product collection) remains untouched when
that promise later resolves, with any result. -/
theorem stale_load_settlement_is_discarded (inst : Instance)
    (result : Except Err (List Product)) :
    settleLoad (deactivate inst) result = deactivate inst ∧
    (settleLoad (deactivate inst) result).state.products =
      inst.state.products := by
  constructor
  · simp [settleLoad, applySet, deactivate]
  · simp [settleLoad, applySet, deactivate]

/-- Claim C4: for every ordered sequence resolved by a successful initial
list call, the collection after the load equals that sequence in the same
order, with the loading flag cleared and the error unset, from any state the
load was issued in. -/
theorem load_success_replaces_collection (s : State)
    (fetchedProducts : List Product) :
    (getProducts s (Except.ok fetchedProducts)).products = fetchedProducts ∧
    (getProducts s (Except.ok fetchedProducts)).isLoading = false ∧
    (getProducts s (Except.ok fetchedProducts)).error = none := by
  refine ⟨rfl, rfl, rfl⟩

/-- Claim C5: for every error value with which the initial list call fails,
after the load of a fresh activation the collection is empty, the error field
holds that value, and the loading flag is cleared. -/
theorem load_failure_leaves_empty_sets_error (e : Err) :
    (settleLoad activate (Except.error e)).state.products = [] ∧
    (settleLoad activate (Except.error e)).state.error = some e ∧
    (settleLoad activate (Except.error e)).state.isLoading = false := by
  refine ⟨rfl, rfl, rfl⟩

/-- Claim C6: for every current state, a successful create appends exactly
the server-returned record to the end of the collection, leaving all existing
entries and their order unchanged, and the handler promise resolves; a failed
create leaves the whole state unchanged and surfaces the failure to the
caller as a rejected handler promise. -/
theorem create_appends_or_rejects (s : State) (createdProduct : Product)
    (err : Err) :
    (handleCreateProduct s (Except.ok createdProduct)).1.products =
      s.products ++ [createdProduct] ∧
    (handleCreateProduct s (Except.ok createdProduct)).2 = Except.ok () ∧
    handleCreateProduct s (Except.error err) = (s, Except.error err) := by
  refine ⟨rfl, rfl, rfl⟩

/-- Claim C3 counterexample: the claim states that every remote-call failure
in the create, update and delete handlers is caught inside the handler and
never crosses the handler boundary. In the code, `handleCreateProduct` and
`handleDeleteProduct` contain no `try`/`catch`: at the concrete failure
"boom" the create handler promise rejects (is not a resolved promise), and so
does the delete handler promise, refuting the claim. -/
theorem uncaught_failure_crosses_create_and_delete_boundary :
    (handleCreateProduct initialState (Except.error "boom")).2 =
      Except.error "boom" ∧
    (handleCreateProduct initialState (Except.error "boom")).2 ≠
      Except.ok () ∧
    (handleDeleteProduct initialState "p1" (Except.error "boom")).2 ≠
      Except.ok () := by
  refine ⟨rfl, ?_, ?_⟩ <;> intro h <;> cases h

/-- Claim C3 amended: only the update handler catches its remote-call failure
inside the handler (its promise always resolves); the create and delete
handlers do not catch a failure, and it crosses the handler boundary as a
rejected handler promise carrying the same failure value, while the state is
left unchanged. -/
theorem update_catches_create_delete_propagate (s : State)
    (r : Except Err Product) (productId : String) (e : Err) :
    (handleProductUpdate s r).2 = Except.ok () ∧
    handleCreateProduct s (Except.error e) = (s, Except.error e) ∧
    handleDeleteProduct s productId (Except.error e) =
      (s, Except.error e) := by
  refine ⟨?_, rfl, rfl⟩
  cases r <;> rfl

/-- Helper: the update map of `handleProductUpdate` is the identity on a list
none of whose entries carries the id of the returned record. -/
theorem map_update_eq_self (l : List Product) (r : Product)
    (h : ∀ q ∈ l, q.id ≠ r.id) :
    l.map (fun p => if p.id = r.id then r else p) = l := by
  have h' : ∀ q ∈ l, (fun p => if p.id = r.id then r else p) q = id q := by
    intro q hq
    simp [h q hq]
  rw [List.map_congr_left h', List.map_id]

/-- Helper: the delete filter of `handleDeleteProduct` keeps every entry of a
list none of whose entries carries the deleted id. -/
theorem filter_delete_eq_self (l : List Product) (productId : String)
    (h : ∀ q ∈ l, q.id ≠ productId) :
    l.filter (fun p => p.id ≠ productId) = l := by
  refine List.filter_eq_self.mpr ?_
  intro a ha
  simp [h a ha]

/-- Helper: `find?` over a split list whose left part has no match and whose
middle entry matches returns the middle entry. -/
theorem find?_split_eq_middle (l₁ l₂ : List Product) (p : Product)
    (productId : String) (hp : p.id = productId)
    (h₁ : ∀ q ∈ l₁, q.id ≠ productId) :
    (l₁ ++ p :: l₂).find? (fun q => q.id = productId) = some p := by
  induction l₁ with
  | nil =>
      rw [List.nil_append]
      exact List.find?_cons_of_pos l₂ (by simp [hp])
  | cons a t ih =>
      have ha : a.id ≠ productId := h₁ a (List.mem_cons_self a t)
      have ht : ∀ q ∈ t, q.id ≠ productId := fun q hq =>
        h₁ q (List.mem_cons_of_mem a hq)
      rw [List.cons_append, List.find?_cons_of_neg _ (by simp [ha])]
      exact ih ht

/-- Claim C7: a failed update leaves the entire state unchanged, for every
state; and for every collection containing (per the collection invariant,
uniquely) an entry with the id of the returned record, a successful update
replaces that entry in place with the server-returned record and leaves every
other entry, and their order, unchanged. -/
theorem update_replaces_in_place (s : State) (r : Product) (err : Err) :
    (handleProductUpdate s (Except.error err)).1 = s ∧
    (∀ l₁ l₂ p, s.products = l₁ ++ p :: l₂ → p.id = r.id →
      (∀ q ∈ l₁, q.id ≠ r.id) → (∀ q ∈ l₂, q.id ≠ r.id) →
      (handleProductUpdate s (Except.ok r)).1.products = l₁ ++ r :: l₂) := by
  constructor
  · rfl
  · intro l₁ l₂ p hsplit hp h₁ h₂
    simp only [handleProductUpdate, hsplit, List.map_append, List.map_cons]
    rw [if_pos hp, map_update_eq_self l₁ r h₁, map_update_eq_self l₂ r h₂]

/-- Claim C7 witness: at the concrete collection `[A, B, C]` and a returned
record with the id of `B`, the update yields `[A, B2, C]`, and a failed
update leaves the state unchanged. -/
theorem update_replaces_in_place_witness :
    (handleProductUpdate
        { initialState with
            products := [⟨"1", "A"⟩, ⟨"2", "B"⟩, ⟨"3", "C"⟩] }
        (Except.error "boom")).1 =
      { initialState with
          products := [⟨"1", "A"⟩, ⟨"2", "B"⟩, ⟨"3", "C"⟩] } ∧
    (handleProductUpdate
        { initialState with
            products := [⟨"1", "A"⟩, ⟨"2", "B"⟩, ⟨"3", "C"⟩] }
        (Except.ok ⟨"2", "B2"⟩)).1.products =
      [⟨"1", "A"⟩, ⟨"2", "B2"⟩, ⟨"3", "C"⟩] :=
  ⟨(update_replaces_in_place _ ⟨"2", "B2"⟩ "boom").1,
    (update_replaces_in_place _ ⟨"2", "B2"⟩ "boom").2
      [⟨"1", "A"⟩] [⟨"3", "C"⟩] ⟨"2", "B"⟩ rfl rfl (by decide) (by decide)⟩

/-- Claim C8: for every state and product id, a delete resolving to false or
rejecting leaves the state unchanged; and for every collection containing
(per the collection invariant, uniquely) an entry with the deleted id, a
delete resolving to true removes exactly that entry, preserving the relative
order of all other entries. -/
theorem delete_only_on_explicit_true (s : State) (productId : String)
    (err : Err) :
    (handleDeleteProduct s productId (Except.ok false)).1 = s ∧
    (handleDeleteProduct s productId (Except.error err)).1 = s ∧
    (∀ l₁ l₂ p, s.products = l₁ ++ p :: l₂ → p.id = productId →
      (∀ q ∈ l₁, q.id ≠ productId) → (∀ q ∈ l₂, q.id ≠ productId) →
      (handleDeleteProduct s productId (Except.ok true)).1.products =
        l₁ ++ l₂) := by
  refine ⟨rfl, rfl, ?_⟩
  intro l₁ l₂ p hsplit hp h₁ h₂
  simp only [handleDeleteProduct, hsplit, List.filter_append,
    List.filter_cons]
  rw [filter_delete_eq_self l₁ productId h₁,
    filter_delete_eq_self l₂ productId h₂]
  simp [hp]

/-- Claim C8 witness: at the concrete collection `[A, B]`, deleting the id of
`A` with result false leaves `[A, B]`; with result true it yields `[B]`. -/
theorem delete_only_on_explicit_true_witness :
    (handleDeleteProduct
        { initialState with products := [⟨"1", "A"⟩, ⟨"2", "B"⟩] }
        "1" (Except.ok false)).1 =
      { initialState with products := [⟨"1", "A"⟩, ⟨"2", "B"⟩] } ∧
    (handleDeleteProduct
        { initialState with products := [⟨"1", "A"⟩, ⟨"2", "B"⟩] }
        "1" (Except.ok true)).1.products = [⟨"2", "B"⟩] :=
  ⟨(delete_only_on_explicit_true _ "1" "boom").1,
    (delete_only_on_explicit_true _ "1" "boom").2.2
      [] [⟨"2", "B"⟩] ⟨"1", "A"⟩ rfl rfl (by decide) (by decide)⟩

/-- Claim C9: requesting edit for an id carried by no entry of the current
collection leaves the whole state unchanged (in particular the edit target is
unchanged and the edit dialog is not opened); requesting edit for the id of
an entry preceded by no other entry with that id sets the edit target to that
entry and opens the edit dialog. -/
theorem edit_lookup_race_safe (s : State) (productId : String) :
    ((∀ q ∈ s.products, q.id ≠ productId) →
      handleEditProduct s productId = s) ∧
    (∀ l₁ l₂ p, s.products = l₁ ++ p :: l₂ → p.id = productId →
      (∀ q ∈ l₁, q.id ≠ productId) →
      handleEditProduct s productId =
        { s with selectedProductForEdit := some p,
                 isEditDialogOpen := true }) := by
  constructor
  · intro h
    have hfind : s.products.find? (fun q => q.id = productId) = none :=
      List.find?_eq_none.mpr (fun x hx => by simp [h x hx])
    simp [handleEditProduct, hfind]
  · intro l₁ l₂ p hsplit hp h₁
    have hfind : s.products.find? (fun q => q.id = productId) = some p := by
      rw [hsplit]; exact find?_split_eq_middle l₁ l₂ p productId hp h₁
    simp [handleEditProduct, hfind]

/-- Claim C9 witness: with collection `[A]`, requesting edit for the absent
id "9" changes nothing, and requesting edit for the id of `A` selects `A` and
opens the edit dialog. -/
theorem edit_lookup_race_safe_witness :
    handleEditProduct { initialState with products := [⟨"1", "A"⟩] } "9" =
      { initialState with products := [⟨"1", "A"⟩] } ∧
    handleEditProduct { initialState with products := [⟨"1", "A"⟩] } "1" =
      { initialState with
          products := [⟨"1", "A"⟩]
          selectedProductForEdit := some ⟨"1", "A"⟩
          isEditDialogOpen := true } :=
  ⟨(edit_lookup_race_safe _ "9").1 (by decide),
    (edit_lookup_race_safe _ "1").2 [] [] ⟨"1", "A"⟩ rfl rfl (by decide)⟩

/-- Claim C10: a successful update whose returned record has an id matching
no entry of the current collection leaves the whole state unchanged: the
update handler never inserts a new entry. -/
theorem update_never_inserts (s : State) (r : Product)
    (h : ∀ q ∈ s.products, q.id ≠ r.id) :
    (handleProductUpdate s (Except.ok r)).1 = s := by
  simp [handleProductUpdate, map_update_eq_self s.products r h]

/-- Claim C10 witness: with collection `[A]`, a successful update returning a
record with the fresh id "9" leaves the state unchanged. -/
theorem update_never_inserts_witness :
    (handleProductUpdate { initialState with products := [⟨"1", "A"⟩] }
        (Except.ok ⟨"9", "Z"⟩)).1 =
      { initialState with products := [⟨"1", "A"⟩] } :=
  update_never_inserts _ ⟨"9", "Z"⟩ (by decide)

/-- Helper: the update map of `handleProductUpdate` never changes the list of
ids of the collection, whatever the returned record is. -/
theorem map_update_ids_eq (l : List Product) (r : Product) :
    (l.map (fun p => if p.id = r.id then r else p)).map Product.id =
      l.map Product.id := by
  rw [List.map_map]
  refine List.map_congr_left ?_
  intro a _
  by_cases h : a.id = r.id
  · simp [Function.comp, h]
  · simp [Function.comp, h]

/-- Helper: one settled operation preserves the collection invariant,
provided the settlement honours the id-authority contract of the remote
service. -/
theorem step_preserves_uniqueIds (s : State) (e : Event)
    (hs : uniqueIds s.products) (hc : eventRespectsContract s e) :
    uniqueIds (step s e).products := by
  cases e with
  | load result =>
      cases result with
      | ok ps =>
          simpa [step, getProducts, loadSettle, loadStart, uniqueIds] using hc
      | error err =>
          simpa [step, getProducts, loadSettle, loadStart, uniqueIds] using hs
  | create result =>
      cases result with
      | ok p =>
          have hfresh : p.id ∉ s.products.map Product.id := hc
          have : ((s.products ++ [p]).map Product.id).Nodup := by
            rw [List.map_append]
            refine List.Nodup.append hs (List.nodup_singleton _) ?_
            intro x hx hxp
            have hxid : x = p.id := by simpa using hxp
            exact hfresh (hxid ▸ hx)
          simpa [step, handleCreateProduct, uniqueIds] using this
      | error err =>
          simpa [step, handleCreateProduct, uniqueIds] using hs
  | edit productId =>
      cases hfind : s.products.find? (fun p => p.id = productId) with
      | some productToEdit =>
          simpa [step, handleEditProduct, hfind, uniqueIds] using hs
      | none =>
          simpa [step, handleEditProduct, hfind, uniqueIds] using hs
  | update result =>
      cases result with
      | ok r =>
          have := map_update_ids_eq s.products r
          simpa [step, handleProductUpdate, uniqueIds, this] using hs
      | error err =>
          simpa [step, handleProductUpdate, uniqueIds] using hs
  | delete productId result =>
      match result with
      | Except.ok true =>
          have hsub :
              List.Sublist (s.products.filter (fun p => p.id ≠ productId))
                s.products :=
            List.filter_sublist s.products
          have : ((s.products.filter (fun p => p.id ≠ productId)).map
              Product.id).Nodup :=
            List.Nodup.sublist (hsub.map Product.id) hs
          simpa [step, handleDeleteProduct, uniqueIds] using this
      | Except.ok false =>
          simpa [step, handleDeleteProduct, uniqueIds] using hs
      | Except.error err =>
          simpa [step, handleDeleteProduct, uniqueIds] using hs

/-- Helper: a contract-honouring trace of settled operations preserves the
collection invariant. -/
theorem run_preserves_uniqueIds (s : State) (es : List Event)
    (hs : uniqueIds s.products) (hc : contractTrace s es) :
    uniqueIds (run s es).products := by
  induction es generalizing s with
  | nil => simpa [run] using hs
  | cons e es ih =>
      obtain ⟨hce, hct⟩ := hc
      simpa [run] using ih (step s e) (step_preserves_uniqueIds s e hs hce) hct

/-- Claim C2 counterexample: the claim, quantified over every sequence of
successful operations, fails on the code: nothing deduplicates ids, so two
successful creates whose responses carry the same id "1" yield a collection
with two entries of id "1". -/
theorem duplicate_ids_reachable :
    ¬ uniqueIds (run initialState
      [Event.load (Except.ok []),
        Event.create (Except.ok ⟨"1", "A"⟩),
        Event.create (Except.ok ⟨"1", "A"⟩)]).products := by
  decide

/-- Claim C2 amended: after every sequence of successful operations from
activation in which the remote service honours its id-authority contract
(list responses carry pairwise-distinct ids and create responses carry an id
not already present), the local product list contains at most one entry per
id. -/
theorem collection_has_unique_ids (es : List Event)
    (hc : contractTrace initialState es) :
    uniqueIds (run initialState es).products :=
  run_preserves_uniqueIds initialState es (by decide) hc

/-- Claim C2 witness: a concrete contract-honouring trace exercising load,
create, update, delete and edit, after which the ids are pairwise distinct. -/
theorem collection_has_unique_ids_witness :
    contractTrace initialState
      [Event.load (Except.ok [⟨"1", "A"⟩, ⟨"2", "B"⟩]),
        Event.create (Except.ok ⟨"3", "C"⟩),
        Event.update (Except.ok ⟨"2", "B2"⟩),
        Event.delete "1" (Except.ok true),
        Event.edit "2"] ∧
    uniqueIds (run initialState
      [Event.load (Except.ok [⟨"1", "A"⟩, ⟨"2", "B"⟩]),
        Event.create (Except.ok ⟨"3", "C"⟩),
        Event.update (Except.ok ⟨"2", "B2"⟩),
        Event.delete "1" (Except.ok true),
        Event.edit "2"]).products :=
  ⟨by decide, collection_has_unique_ids _ (by decide)⟩

end AdminProducts
